import Mathlib

/-!
Verification development for the MaliciousMacroBot pipeline
(`mmbot/mmbot.py`).  Python strings are modelled as `String` / `List Char`,
Python floats as exact values (`ℚ` for the ratio features, `ℝ` for the
entropy features, with natural logarithm), pandas rows as structures, and
fallible operations as `Except` / `Option` values.  Each definition mirrors
one function (or one contiguous block) of the source file; the theorems at
the end of the file settle the specification claims against these
definitions.
-/

namespace MMBot

/-- The apostrophe character (`chr 39`), the VBA comment marker counted by
`get_vba_features` via `vb.count("'")`. -/
def apostrophe : Char := Char.ofNat 39

/-- Python `str.split(sep)` / `str.splitlines` share this splitter: cut the
character list at every character satisfying `p`, keeping empty segments
(exactly like Python `"a  b".split(' ') == ['a', '', 'b']`). -/
def pySplitOnP (p : Char → Bool) : List Char → List (List Char)
  | [] => [[]]
  | x :: xs =>
    match pySplitOnP p xs with
    | [] => [[x]]
    | h :: t => if p x then [] :: h :: t else (x :: h) :: t

/-- Python `vb.split(' ')`: split on every single space character, empty
pieces retained (this is what the source feeds to the entropy helper). -/
def pySplitSpace (s : List Char) : List (List Char) :=
  pySplitOnP (fun c => c = ' ') s

/-- Python whitespace class `\s` (space, tab, newline, carriage return,
vertical tab, form feed), also used for `str.strip()`. -/
def isPySpace (c : Char) : Bool :=
  c = ' ' || c = '\t' || c = '\n' || c = '\r' || c = '\x0b' || c = '\x0c'

/-- Python `str.split()` with no argument: split on runs of whitespace and
drop empty pieces.  This is the "whitespace-split tokens" reading of the
specification (the source never calls it; it calls `split(' ')`). -/
def pyWhitespaceTokens (s : List Char) : List (List Char) :=
  (pySplitOnP isPySpace s).filter (fun t => ¬ t = [])

/-- Python `str.splitlines()` restricted to `'\n'` line breaks (the only
break the extractor produces): split on `'\n'` and drop the trailing empty
segment, so `"a\nb" ↦ ["a","b"]`, `"a\n" ↦ ["a"]`, `"" ↦ []`. -/
def pySplitlines (s : List Char) : List (List Char) :=
  let r := pySplitOnP (fun c => c = '\n') s
  if r.getLast? = some [] then r.dropLast else r

/-- Python `str.strip()`: remove leading and trailing whitespace. -/
def pyStrip (s : List Char) : List Char :=
  ((s.dropWhile isPySpace).reverse.dropWhile isPySpace).reverse

/-- `get_entropy` of the source (and the Shannon entropy of the
specification): `scipy.stats.entropy(value_counts(l) / len(l))`, i.e.
`-Σ_v p_v · ln p_v` over the distinct values `v` of the list, with
`p_v = count(v) / len(l)` (natural logarithm, as `scipy` uses). -/
noncomputable def get_entropy {α : Type} [DecidableEq α] (l : List α) : ℝ :=
  - ((l.dedup).map
      (fun v => ((l.count v : ℝ) / (l.length : ℝ)) *
        Real.log ((l.count v : ℝ) / (l.length : ℝ)))).sum

/-- The character class `[Sub|Function]` of the source regular expression
`.*\s?[Sub|Function]\s+([a-zA-Z0-9_]+)\((.*)\)`: one character drawn from
the letters of `Sub|Function` (a character class, not an alternation). -/
def isClassChar (c : Char) : Bool :=
  c = 'S' || c = 'u' || c = 'b' || c = '|' || c = 'F' || c = 'n' ||
  c = 'c' || c = 't' || c = 'i' || c = 'o'

/-- The `[a-zA-Z0-9_]` class capturing the function name. -/
def isNameChar (c : Char) : Bool :=
  c.isAlpha || c.isDigit || c = '_'

/-- Try to match `[Sub|Function]\s+([a-zA-Z0-9_]+)\((.*)\)` at the head of
`t`, following Python's backtracking semantics: the whitespace run and the
name are maximal (shorter choices cannot be followed by the mandatory next
character class), and the greedy `(.*)` captures up to the last `')'`.
Returns the two captured groups on success. -/
def tryMatchAt (t : List Char) : Option (List Char × List Char) :=
  match t with
  | [] => none
  | c :: t1 =>
    if isClassChar c then
      let ws := t1.takeWhile isPySpace
      if ws = [] then none
      else
        let t2 := t1.drop ws.length
        let nm := t2.takeWhile isNameChar
        if nm = [] then none
        else
          match t2.drop nm.length with
          | '(' :: t4 =>
            if t4.any (fun x => x = ')') then
              some (nm, (((t4.reverse).dropWhile (fun x => ¬ x = ')')).drop 1).reverse)
            else none
          | _ => none
    else none

/-- First match of the source regular expression on one line.  The leading
greedy `.*\s?` makes the Python engine choose the latest feasible position
for the `[Sub|Function]` character, so we scan candidate start positions
from the right.  (The source only uses the first element of `findall`.) -/
def lineFuncMatch (s : List Char) : Option (List Char × List Char) :=
  (List.range s.length).reverse.findSome? (fun p => tryMatchAt (s.drop p))

/-- Insertion into the Python dict `functions[name] = num_params`:
assignment overwrites the value but keeps the original key position. -/
def dictInsert (k : List Char) (v : Nat) (d : List (List Char × Nat)) :
    List (List Char × Nat) :=
  if d.any (fun p => p.1 = k) then
    d.map (fun p => if p.1 = k then (k, v) else p)
  else d ++ [(k, v)]

/-- Accumulator of the per-line loop inside `get_vba_features`:
the non-blank lines collected so far, the `functions` dict, and the
`num_functions` counter. -/
structure LineScan where
  new_lines : List (List Char)
  functions : List (List Char × Nat)
  num_functions : Nat
deriving DecidableEq

/-- One iteration of the `for line in lines` loop of `get_vba_features`. -/
def scanLine (acc : LineScan) (line : List Char) : LineScan :=
  let acc :=
    if (pyStrip line).length > 0 then
      { acc with new_lines := acc.new_lines ++ [line] }
    else acc
  match lineFuncMatch line with
  | none => acc
  | some (nm, params) =>
    let np := params.count ',' + 1
    let np := if (pyStrip params).length ≤ 0 then 0 else np
    { acc with
      num_functions := acc.num_functions + 1,
      functions := dictInsert nm np acc.functions }

/-- The per-sample feature vector produced by `get_vba_features`.  The two
loc-ratio fields model the source columns `vba_cnt_func_loc_ratio` and
`vba_cnt_comment_loc_ratio` (renamed `..._frac` here). -/
structure VbaFeatures where
  function_names : List Char
  vba_avg_param_per_func : ℚ
  vba_cnt_comments : Nat
  vba_cnt_functions : Nat
  vba_cnt_loc : Nat
  vba_cnt_func_loc_frac : ℚ
  vba_cnt_comment_loc_frac : ℚ
  vba_entropy_chars : ℝ
  vba_entropy_words : ℝ
  vba_entropy_func_names : ℝ
  vba_mean_loc_per_func : ℚ

/-- `get_vba_features(vb)` of the source.  On the sentinel inputs
(`"No VBA Macros found"` or a string whose first six characters are
`"Error:"`) every numeric feature is zero; the source also assigns
`functions = 'None'` there, but the returned `function_names` field reads
the distinct variable `functions_str`, which still holds `''`.  Otherwise
the per-line loop is run and the features assembled exactly as in the
source — in particular `entropy_chars` is computed from `vb.split(' ')`
and `entropy_words` from `list(vb)`. -/
noncomputable def get_vba_features (vb : String) : VbaFeatures :=
  let s := vb.data
  if s = ("No VBA Macros found").data ∨ s.take 6 = ("Error:").data then
    { function_names := ("").data
      vba_avg_param_per_func := 0
      vba_cnt_comments := 0
      vba_cnt_functions := 0
      vba_cnt_loc := 0
      vba_cnt_func_loc_frac := 0
      vba_cnt_comment_loc_frac := 0
      vba_entropy_chars := 0
      vba_entropy_words := 0
      vba_entropy_func_names := 0
      vba_mean_loc_per_func := 0 }
  else
    let num_comments := s.count apostrophe
    let lines := pySplitlines s
    let entropy_chars := get_entropy (pySplitSpace s)
    let entropy_words := get_entropy s
    let scan := lines.foldl scanLine ⟨[], [], 0⟩
    let loc := scan.new_lines.length
    let functions := scan.functions
    let entropy_func_names : ℝ :=
      if functions.length > 0 then get_entropy ((functions.map Prod.fst).flatten) else 0
    let functions_str : List Char :=
      if functions.length > 0 then List.intercalate (", ").data (functions.map Prod.fst)
      else ("").data
    let avg_param : ℚ :=
      if functions.length > 0 then
        (((functions.map Prod.snd).sum : ℚ)) / (functions.length : ℚ)
      else 0
    let func_loc : ℚ := if loc > 0 then (functions.length : ℚ) / (loc : ℚ) else 0
    let comment_loc : ℚ := if loc > 0 then (num_comments : ℚ) / (loc : ℚ) else 0
    let avg_loc_func : ℚ :=
      if scan.num_functions ≤ 0 then (loc : ℚ)
      else (loc : ℚ) / (scan.num_functions : ℚ)
    { function_names := functions_str
      vba_avg_param_per_func := avg_param
      vba_cnt_comments := num_comments
      vba_cnt_functions := scan.num_functions
      vba_cnt_loc := loc
      vba_cnt_func_loc_frac := func_loc
      vba_cnt_comment_loc_frac := comment_loc
      vba_entropy_chars := entropy_chars
      vba_entropy_words := entropy_words
      vba_entropy_func_names := entropy_func_names
      vba_mean_loc_per_func := avg_loc_func }

/-- The end-to-end malicious sample of the specification's test list. -/
def vbSample : String := "Sub x()\nShell(\"cmd\")\nEnd Sub"

/-- C6: for the macro text `"Sub x()\nShell(\"cmd\")\nEnd Sub"` the feature
extractor produces `num_functions = 1` (only the `Sub x()` line matches the
function-declaration pattern) and `loc = 3` (all three lines are
non-blank). -/
theorem C6_end_to_end_counts :
    (get_vba_features vbSample).vba_cnt_functions = 1 ∧
    (get_vba_features vbSample).vba_cnt_loc = 3 := by
  constructor <;> decide

/-- Entropy of a one-value distribution is `0` (`-1·ln 1`). -/
theorem get_entropy_singleton {α : Type} [DecidableEq α] (x : α) :
    get_entropy [x] = 0 := by
  simp [get_entropy]

/-- Entropy of two equally likely distinct values is `ln 2`. -/
theorem get_entropy_pair {α : Type} [DecidableEq α] {x y : α} (h : x ≠ y) :
    get_entropy [x, y] = Real.log 2 := by
  have hd : ([x, y] : List α).dedup = [x, y] := List.Nodup.dedup (by simp [h])
  have h2 : ((1 : ℝ) / 2) = (2 : ℝ)⁻¹ := by norm_num
  simp [get_entropy, hd, h, h.symm, h2, Real.log_inv]
  ring

/-- C2: on the sentinel inputs all numeric features are zero, but the
`function_names` field is the empty string, not `"None"`: the source
assigns `'None'` to the local variable `functions` while the returned
field reads `functions_str`, which is still `''`. -/
theorem C2_sentinel_features :
    (get_vba_features "No VBA Macros found").function_names = ("").data ∧
    ¬ (get_vba_features "No VBA Macros found").function_names = ("None").data ∧
    (get_vba_features "No VBA Macros found").vba_avg_param_per_func = 0 ∧
    (get_vba_features "No VBA Macros found").vba_cnt_comments = 0 ∧
    (get_vba_features "No VBA Macros found").vba_cnt_functions = 0 ∧
    (get_vba_features "No VBA Macros found").vba_cnt_loc = 0 ∧
    (get_vba_features "No VBA Macros found").vba_cnt_func_loc_frac = 0 ∧
    (get_vba_features "No VBA Macros found").vba_cnt_comment_loc_frac = 0 ∧
    (get_vba_features "No VBA Macros found").vba_entropy_chars = 0 ∧
    (get_vba_features "No VBA Macros found").vba_entropy_words = 0 ∧
    (get_vba_features "No VBA Macros found").vba_entropy_func_names = 0 ∧
    (get_vba_features "No VBA Macros found").vba_mean_loc_per_func = 0 ∧
    (get_vba_features "Error: oops").function_names = ("").data ∧
    ¬ (get_vba_features "Error: oops").function_names = ("None").data := by
  refine ⟨rfl, by decide, rfl, rfl, rfl, rfl, rfl, rfl, rfl, rfl, rfl, rfl, rfl, by decide⟩

/-- C1: on the non-sentinel input `"ab"` the two entropy features are
swapped relative to their names: `vba_entropy_chars` is computed from the
space-split token list (`get_entropy(vb.split(' '))` in the source) and
`vba_entropy_words` from the character list, so `vba_entropy_chars`
differs from the character entropy (`0 ≠ ln 2`) and `vba_entropy_words`
differs from the whitespace-token entropy (`ln 2 ≠ 0`). -/
theorem C1_entropy_fields_swapped :
    (get_vba_features "ab").vba_entropy_chars = get_entropy (pySplitSpace ("ab").data) ∧
    (get_vba_features "ab").vba_entropy_words = get_entropy ("ab").data ∧
    ¬ (get_vba_features "ab").vba_entropy_chars = get_entropy ("ab").data ∧
    ¬ (get_vba_features "ab").vba_entropy_words = get_entropy (pyWhitespaceTokens ("ab").data) := by
  have hsplit : pySplitSpace ("ab").data = [("ab").data] := by decide
  have htok : pyWhitespaceTokens ("ab").data = [("ab").data] := by decide
  have hchars : (get_vba_features "ab").vba_entropy_chars
      = get_entropy (pySplitSpace ("ab").data) := rfl
  have hwords : (get_vba_features "ab").vba_entropy_words
      = get_entropy ("ab").data := rfl
  have hzero : get_entropy (pySplitSpace ("ab").data) = 0 := by
    rw [hsplit]; exact get_entropy_singleton _
  have hlog : get_entropy ("ab").data = Real.log 2 := by
    have : ("ab").data = ['a', 'b'] := by decide
    rw [this]; exact get_entropy_pair (by decide)
  have hne : Real.log 2 ≠ 0 := ne_of_gt (Real.log_pos one_lt_two)
  refine ⟨hchars, hwords, ?_, ?_⟩
  · rw [hchars, hzero, hlog]; exact fun hh => hne hh.symm
  · rw [hwords, hlog, htok, get_entropy_singleton]; exact hne

/-- One row of the prediction result frame: the extracted macro text and
the `prediction` column.  (The remaining columns of the source frame do
not interact with the benign policy override.) -/
structure PredRow where
  extracted_vba : String
  prediction : String
deriving DecidableEq

/-- The policy-override line of `mmb_predict`:
`complete_result.loc[complete_result.extracted_vba == 'No VBA Macros found', 'prediction'] = 'benign'`. -/
def apply_benign_override (rows : List PredRow) : List PredRow :=
  rows.map (fun r =>
    if r.extracted_vba = "No VBA Macros found" then
      { r with prediction := "benign" }
    else r)

/-- `mmb_predict` for the `vba` datatype on a batch of extracted macro
texts: each sample is classified (`classify_vba`, abstracted here as an
arbitrary classifier producing the `prediction` column) and then the
benign policy override is applied. -/
def mmb_predict_vba (classify : String → String) (inputs : List String) :
    List PredRow :=
  apply_benign_override (inputs.map (fun v => ⟨v, classify v⟩))

/-- C3: every row of the prediction result whose extracted macro text is
the sentinel `"No VBA Macros found"` carries the predicted label
`"benign"`, whatever label the trained classifier produced for it. -/
theorem C3_no_macro_forced_benign (classify : String → String)
    (inputs : List String) (r : PredRow)
    (hr : r ∈ mmb_predict_vba classify inputs)
    (hs : r.extracted_vba = "No VBA Macros found") :
    r.prediction = "benign" := by
  rcases List.mem_map.mp hr with ⟨r0, _, hr0⟩
  subst hr0
  by_cases hcase : r0.extracted_vba = "No VBA Macros found"
  · simp [hcase]
  · rw [if_neg hcase] at hs
    exact absurd hs hcase

/-- Witness for C3: a classifier that answers `"malicious"` on everything
is still overridden to `"benign"` on the sentinel row. -/
theorem C3_no_macro_forced_benign_witness :
    (⟨"No VBA Macros found", "benign"⟩ : PredRow) ∈
      mmb_predict_vba (fun _ => "malicious") ["No VBA Macros found"] ∧
    (⟨"No VBA Macros found", "benign"⟩ : PredRow).prediction = "benign" := by
  have hmem : (⟨"No VBA Macros found", "benign"⟩ : PredRow) ∈
      mmb_predict_vba (fun _ => "malicious") ["No VBA Macros found"] := by decide
  exact ⟨hmem,
    C3_no_macro_forced_benign (fun _ => "malicious") ["No VBA Macros found"] _ hmem (by decide)⟩

/-- The Python exception kinds distinguished by the `except` clauses of
`load_model` and by `mmb_predict`'s input check: `IOError`, `TypeError`,
and any other exception class. -/
inductive PyExc where
  | ioError : PyExc
  | typeError : PyExc
  | otherError : PyExc
deriving DecidableEq

/-- The deserialized model blob.  `wellformed` abstracts whether the
second `try` block of `load_model` (reading the `modeldata` / `features` /
count-matrix keys and rebuilding the vectorizer and classifier) succeeds
on it; any exception it raises is caught and turned into `False`. -/
structure ModelBlob where
  wellformed : Bool
deriving DecidableEq

/-- `load_model` of the source.  `primary` is the outcome of
`joblib.load(self.modeldata_pickle)`, `fallback` the outcome of
`joblib.load(gzip.open(self.modeldata_pickle_gz))`.  The first `try`
catches `IOError` (then tries the fallback, swallowing every exception it
raises) and `TypeError` (corrupt pickle, per the source's own log
message); any other exception from the primary load propagates.  The
second `try` block returns `False` on any failure — in particular when no
blob was loaded at all. -/
def load_model (primary fallback : Except PyExc ModelBlob) : Except PyExc Bool :=
  let loaded : Except PyExc (Option ModelBlob) :=
    match primary with
    | .ok m => .ok (some m)
    | .error .ioError =>
      match fallback with
      | .ok m => .ok (some m)
      | .error _ => .ok none
    | .error .typeError => .ok none
    | .error .otherError => .error .otherError
  match loaded with
  | .error e => .error e
  | .ok none => .ok false
  | .ok (some m) => .ok m.wellformed

/-- C9: the primary store is attempted first (a usable primary blob is
returned without consulting the fallback), on a missing primary
(`IOError`) the compressed fallback is attempted, and when both stores
are absent or corrupt (`IOError` / `TypeError`, the source's own
corruption signal) the function returns `False` instead of raising. -/
theorem C9_load_model_fallback_and_failure :
    (∀ p f : Except PyExc ModelBlob,
      (p = .error .ioError ∨ p = .error .typeError) →
      (∀ m, ¬ f = .ok m) →
      load_model p f = .ok false) ∧
    (∀ (m : ModelBlob) (f : Except PyExc ModelBlob),
      load_model (.ok m) f = .ok m.wellformed) ∧
    (∀ m : ModelBlob,
      load_model (.error .ioError) (.ok m) = .ok m.wellformed) := by
  refine ⟨?_, ?_, ?_⟩
  · rintro p f (rfl | rfl) hf
    · cases f with
      | ok m => exact absurd rfl (hf m)
      | error e => rfl
    · rfl
  · intro m f; rfl
  · intro m; rfl

/-- Witness for C9: both stores missing (`IOError` twice) yields the
explicit `False` indicator with no propagated exception. -/
theorem C9_load_model_fallback_and_failure_witness :
    load_model (.error .ioError) (.error .ioError) = .ok false :=
  C9_load_model_fallback_and_failure.1 (.error .ioError) (.error .ioError)
    (Or.inl rfl) (fun m h => by cases h)

/-- The prediction input of `mmb_predict`: a Python `str`, a pandas
`DataFrame` (modelled as its list of rows), or a value of any other type.
-/
inductive SampleInput where
  | str : String → SampleInput
  | df : List (List (String × String)) → SampleInput
  | other : SampleInput

/-- Python `len(sample_input)` for the two accepted input types. -/
def inputLen : SampleInput → Nat
  | .str s => s.length
  | .df rows => rows.length
  | .other => 0

/-- The entry checks of `mmb_predict` (source lines 761-764): a value that
is neither a `str` nor a `DataFrame` raises `TypeError` before anything
else runs; a zero-length input returns an empty result frame; otherwise
the batch is handed to the rest of the pipeline (abstracted as
`process`). -/
def mmb_predict_entry
    (process : SampleInput → String → Except PyExc (List PredRow))
    (input : SampleInput) (datatype : String) : Except PyExc (List PredRow) :=
  match input with
  | .other => .error .typeError
  | _ =>
    if inputLen input ≤ 0 then .ok []
    else process input datatype

/-- C10: for every datatype selector and every continuation, the empty
string and the empty DataFrame produce an empty result set without an
error, and a non-string non-DataFrame input is rejected with `TypeError`
before any processing happens. -/
theorem C10_empty_and_type_checks
    (process : SampleInput → String → Except PyExc (List PredRow))
    (datatype : String) :
    mmb_predict_entry process (.str "") datatype = .ok [] ∧
    mmb_predict_entry process (.df []) datatype = .ok [] ∧
    mmb_predict_entry process .other datatype = .error .typeError := by
  exact ⟨rfl, rfl, rfl⟩

/-- Outcome of loading the vocabulary and fitting the count vectorizer. -/
inductive FitOutcome where
  | ok : List String → FitOutcome
  | errMissing : FitOutcome
  | errEmptyVocab : FitOutcome
deriving DecidableEq

/-- Whether fitting failed (an exception was raised). -/
def FitOutcome.isError : FitOutcome → Bool
  | .ok _ => false
  | .errMissing => true
  | .errEmptyVocab => true

/-- Python `str.lower()` (ASCII), as applied to the vocabulary tokens. -/
def pyLower (s : String) : String := String.mk (s.data.map Char.toLower)

/-- Python `str.strip()` on a `String`. -/
def pyStripStr (s : String) : String := String.mk (pyStrip s.data)

/-- The vocabulary-path resolution of `set_model_paths` (lines 95-102):
if the configured `vocab.txt` does not exist, the packaged default
`vocab.txt` is substituted silently.  The file system is modelled as a
partial map from path to file lines. -/
def resolveVocabPath (fs : String → Option (List String))
    (userVocab pkgVocab : String) : String :=
  if (fs userVocab).isNone then pkgVocab else userVocab

/-- `load_model_vocab` followed by the count-vectorizer construction of
`get_language_features`: open the resolved vocabulary file (a missing
file raises `IOError`), strip each line, deduplicate (`set`), lower-case
and deduplicate again, and hand the list to `CountVectorizer`, whose fit
raises `ValueError("empty vocabulary passed to fit")` when the vocabulary
list is empty.  (Python's `set` has no canonical order; the deduplicated
list stands for one enumeration of it — only membership and emptiness
matter here.) -/
def load_vocab_and_fit (fs : String → Option (List String))
    (userVocab pkgVocab : String) : FitOutcome :=
  match fs (resolveVocabPath fs userVocab pkgVocab) with
  | none => .errMissing
  | some lines =>
    let vocab := (lines.map pyStripStr).dedup
    let vocab_lower := (vocab.map pyLower).dedup
    if vocab_lower = [] then .errEmptyVocab else .ok vocab_lower

/-- A file system holding only the packaged default vocabulary. -/
def fsPkgOnly : String → Option (List String) :=
  fun p => if p = "pkg/vocab.txt" then some ["Shell"] else none

/-- Counterexample to C4: the configured vocabulary file is missing, yet
fitting succeeds, because `set_model_paths` silently falls back to the
packaged default vocabulary. -/
theorem C4_missing_vocab_counterexample :
    fsPkgOnly "model/vocab.txt" = none ∧
    load_vocab_and_fit fsPkgOnly "model/vocab.txt" "pkg/vocab.txt" =
      .ok ["shell"] := by
  constructor <;> decide

/-- C4 (amended): fitting the vectorizer fails whenever the RESOLVED
vocabulary file — the configured one, or the packaged default substituted
when the configured one is missing — is itself missing or empty. -/
theorem C4_resolved_vocab_failure (fs : String → Option (List String))
    (userVocab pkgVocab : String)
    (h : fs (resolveVocabPath fs userVocab pkgVocab) = none ∨
         fs (resolveVocabPath fs userVocab pkgVocab) = some []) :
    (load_vocab_and_fit fs userVocab pkgVocab).isError = true := by
  rcases h with h | h <;>
    simp [load_vocab_and_fit, h, FitOutcome.isError]

/-- Witness for the amended C4: with an entirely empty file system (both
vocabulary files missing) the fit fails. -/
theorem C4_resolved_vocab_failure_witness :
    ((fun _ : String => (none : Option (List String)))
        (resolveVocabPath (fun _ => none) "model/vocab.txt" "pkg/vocab.txt") = none ∨
      (fun _ : String => (none : Option (List String)))
        (resolveVocabPath (fun _ => none) "model/vocab.txt" "pkg/vocab.txt") = some []) ∧
    (load_vocab_and_fit (fun _ => none) "model/vocab.txt" "pkg/vocab.txt").isError = true :=
  ⟨Or.inl rfl,
    C4_resolved_vocab_failure (fun _ => none) "model/vocab.txt" "pkg/vocab.txt" (Or.inl rfl)⟩

/-- One row of the sample store (`modeldata`).  Columns that never feed
the merge logic of `load_model_data` (label, family, filename, stream
metadata) are omitted. -/
structure Doc where
  filepath : String
  filesize : Nat
  filemodified : String
  md5 : Option String
  extracted_vba : Option String
deriving DecidableEq

/-- The `groupby(['filesize', 'filepath', 'filemodified'])` key. -/
def metaKey (d : Doc) : Nat × String × String :=
  (d.filesize, d.filepath, d.filemodified)

/-- Source line 338-339: the file paths of all rows belonging to a
metadata group of size greater than one. -/
def omitPaths (temp : List Doc) : List String :=
  ((temp.filter
      (fun d => decide (1 < temp.countP (fun e => decide (metaKey e = metaKey d))))).map
    Doc.filepath).dedup

/-- Source line 340: drop the rows whose path is in the omit set and whose
hash is missing. -/
def dropUnresolved (temp : List Doc) : List Doc :=
  temp.filter (fun d => decide (¬ (d.filepath ∈ omitPaths temp ∧ d.md5 = none)))

/-- Source line 342 (`fill_missing_hashes` applied row-wise): compute the
hash for rows that are missing one.  `hash` models `get_file_hash`, which
returns `None` when the path is not a file. -/
def fillHashes (hash : String → Option String) (temp : List Doc) : List Doc :=
  temp.map (fun d => if d.md5 = none then { d with md5 := hash d.filepath } else d)

/-- Worker for `drop_duplicates(subset='md5', keep='first')`: walk the
rows in order, keeping a row only when its hash value has not been seen
yet. -/
def dedupByMd5Aux (seen : List (Option String)) : List Doc → List Doc
  | [] => []
  | d :: ds =>
    if d.md5 ∈ seen then dedupByMd5Aux seen ds
    else d :: dedupByMd5Aux (d.md5 :: seen) ds

/-- Source line 343, `drop_duplicates(subset='md5', keep='first')`:
keep the first row bearing each hash value (pandas treats missing values
as equal for this purpose, as does the `Option` key here). -/
def dedupByMd5 (l : List Doc) : List Doc := dedupByMd5Aux [] l

/-- Source line 353: run the macro extractor on the genuinely new rows.
`getvba` models the extractor adapter (the `family` enrichment of line 355
does not feed the merge logic). -/
def enrichNew (getvba : String → String) (docs : List Doc) : List Doc :=
  docs.map (fun d => { d with extracted_vba := some (getvba d.filepath) })

/-- The incremental branch of `load_model_data` (source lines 335-357):
append the fresh scan to the known rows, drop metadata-duplicate rows that
have no hash, fill missing hashes, de-duplicate by hash keeping the first
row, split into known rows (extracted text present) and new rows, extract
macros for the new rows, and report how many new rows were found. -/
def load_model_data_merge (hash : String → Option String)
    (getvba : String → String) (known possiblenew : List Doc) :
    List Doc × Nat :=
  let temp := dedupByMd5 (fillHashes hash (dropUnresolved (known ++ possiblenew)))
  let newdocs := temp.filter (fun d => d.extracted_vba.isNone)
  let knowndocs := temp.filter (fun d => ! d.extracted_vba.isNone)
  (knowndocs ++ enrichNew getvba newdocs, newdocs.length)

/-- A fresh disk scan of a known file: same path, size and modified time,
but no hash (`getHash=False`) and no extraction columns yet. -/
def scanRow (d : Doc) : Doc := { d with md5 := none, extracted_vba := none }

/-- Rows kept by the de-duplication worker never carry an already-seen
hash value. -/
theorem dedupByMd5Aux_not_seen :
    ∀ (l : List Doc) (seen : List (Option String)) (r : Doc),
      r ∈ dedupByMd5Aux seen l → ¬ r.md5 ∈ seen := by
  intro l
  induction l with
  | nil => intro seen r h; cases h
  | cons d ds ih =>
    intro seen r h
    rw [dedupByMd5Aux] at h
    by_cases hd : d.md5 ∈ seen
    · rw [if_pos hd] at h
      exact ih seen r h
    · rw [if_neg hd] at h
      rcases List.mem_cons.mp h with rfl | h
      · exact hd
      · intro hseen
        exact ih (d.md5 :: seen) r h (List.mem_cons_of_mem _ hseen)

/-- The de-duplication worker returns a sublist of its input. -/
theorem dedupByMd5Aux_sublist :
    ∀ (l : List Doc) (seen : List (Option String)),
      List.Sublist (dedupByMd5Aux seen l) l := by
  intro l
  induction l with
  | nil => intro seen; simp [dedupByMd5Aux]
  | cons d ds ih =>
    intro seen
    rw [dedupByMd5Aux]
    by_cases hd : d.md5 ∈ seen
    · rw [if_pos hd]
      exact (ih seen).trans (List.sublist_cons_self d ds)
    · rw [if_neg hd]
      exact (ih (d.md5 :: seen)).cons₂ d

/-- `drop_duplicates` returns a sublist of its input. -/
theorem dedupByMd5_sublist (l : List Doc) : List.Sublist (dedupByMd5 l) l :=
  dedupByMd5Aux_sublist l []

/-- After `drop_duplicates(subset='md5')` the hash column has no
duplicate values. -/
theorem dedupByMd5Aux_nodup :
    ∀ (l : List Doc) (seen : List (Option String)),
      ((dedupByMd5Aux seen l).map Doc.md5).Nodup := by
  intro l
  induction l with
  | nil => intro seen; simp [dedupByMd5Aux]
  | cons d ds ih =>
    intro seen
    rw [dedupByMd5Aux]
    by_cases hd : d.md5 ∈ seen
    · rw [if_pos hd]
      exact ih seen
    · rw [if_neg hd]
      simp only [List.map_cons, List.nodup_cons]
      refine ⟨?_, ih (d.md5 :: seen)⟩
      intro hmem
      rcases List.mem_map.mp hmem with ⟨e, he, hmd5⟩
      exact dedupByMd5Aux_not_seen ds (d.md5 :: seen) e he (hmd5 ▸ List.mem_cons_self _ _)

/-- After `drop_duplicates(subset='md5')` the hash column has no
duplicate values. -/
theorem dedupByMd5_nodup (l : List Doc) :
    ((dedupByMd5 l).map Doc.md5).Nodup :=
  dedupByMd5Aux_nodup l []

/-- `drop_duplicates(keep='first')` keeps, for each hash value, exactly
the first row of the input bearing it. -/
theorem dedupByMd5Aux_find? :
    ∀ (l : List Doc) (seen : List (Option String)) (r : Doc),
      r ∈ dedupByMd5Aux seen l →
      l.find? (fun e => decide (e.md5 = r.md5)) = some r := by
  intro l
  induction l with
  | nil => intro seen r h; cases h
  | cons d ds ih =>
    intro seen r h
    rw [dedupByMd5Aux] at h
    by_cases hd : d.md5 ∈ seen
    · rw [if_pos hd] at h
      have hne : ¬ d.md5 = r.md5 := by
        intro he
        exact dedupByMd5Aux_not_seen ds seen r h (he ▸ hd)
      simp [List.find?, hne, ih seen r h]
    · rw [if_neg hd] at h
      rcases List.mem_cons.mp h with rfl | h
      · simp [List.find?]
      · have hnotin := dedupByMd5Aux_not_seen ds (d.md5 :: seen) r h
        have hne : ¬ d.md5 = r.md5 := by
          intro he
          exact hnotin (he ▸ List.mem_cons_self _ _)
        simp [List.find?, hne, ih (d.md5 :: seen) r h]

/-- Wrapper of `dedupByMd5Aux_find?` for the empty seen-set. -/
theorem dedupByMd5_find? {l : List Doc} {r : Doc} (h : r ∈ dedupByMd5 l) :
    l.find? (fun e => decide (e.md5 = r.md5)) = some r :=
  dedupByMd5Aux_find? l [] r h

/-- C7: re-running the ingestion merge against an unchanged corpus — a
fresh scan producing one row per known sample with the same path, size
and modified time, while the first run's hashes and extraction results
are retained — reports zero newly discovered samples. -/
theorem C7_idempotent_ingestion (hash : String → Option String)
    (getvba : String → String) (known : List Doc)
    (hmd5 : ∀ d ∈ known, ¬ d.md5 = none)
    (hvba : ∀ d ∈ known, ¬ d.extracted_vba = none) :
    (load_model_data_merge hash getvba known (known.map scanRow)).2 = 0 := by
  have hdropk :
      known.filter
        (fun d => decide (¬ (d.filepath ∈ omitPaths (known ++ known.map scanRow) ∧
          d.md5 = none))) = known := by
    apply List.filter_eq_self.mpr
    intro d hd
    simp only [decide_eq_true_eq]
    rintro ⟨-, hnone⟩
    exact hmd5 d hd hnone
  have hdropn :
      (known.map scanRow).filter
        (fun d => decide (¬ (d.filepath ∈ omitPaths (known ++ known.map scanRow) ∧
          d.md5 = none))) = [] := by
    apply List.filter_eq_nil_iff.mpr
    intro a ha
    rcases List.mem_map.mp ha with ⟨d, hd, rfl⟩
    simp only [decide_eq_true_eq, not_not]
    refine ⟨?_, rfl⟩
    apply List.mem_dedup.mpr
    apply List.mem_map.mpr
    refine ⟨scanRow d, ?_, rfl⟩
    apply List.mem_filter.mpr
    refine ⟨List.mem_append_right _ (List.mem_map_of_mem _ hd), ?_⟩
    simp only [decide_eq_true_eq]
    have h1 : 0 < known.countP (fun e => decide (metaKey e = metaKey (scanRow d))) :=
      List.countP_pos_iff.mpr ⟨d, hd, by simp [metaKey, scanRow]⟩
    have h2 : 0 < (known.map scanRow).countP
        (fun e => decide (metaKey e = metaKey (scanRow d))) :=
      List.countP_pos_iff.mpr ⟨scanRow d, List.mem_map_of_mem _ hd, by simp⟩
    rw [List.countP_append]
    omega
  have hdrop : dropUnresolved (known ++ known.map scanRow) = known := by
    rw [dropUnresolved, List.filter_append, hdropk, hdropn, List.append_nil]
  have hfill : fillHashes hash known = known := by
    rw [fillHashes]
    rw [show known.map (fun d => if d.md5 = none then { d with md5 := hash d.filepath } else d)
          = known.map id from
        List.map_congr_left (fun d hd => by rw [if_neg (hmd5 d hd)]; rfl)]
    exact List.map_id known
  have hnonew : (dedupByMd5 known).filter (fun d => d.extracted_vba.isNone) = [] := by
    apply List.filter_eq_nil_iff.mpr
    intro a ha
    have hmem : a ∈ known := (dedupByMd5_sublist known).subset ha
    simp only [Bool.not_eq_true, Option.isNone_eq_false_iff, Option.isSome_iff_ne_none]
    exact hvba a hmem
  rw [load_model_data_merge, hdrop, hfill, hnonew]
  rfl

/-- Witness for C7: one known sample with hash and extraction retained,
re-scanned unchanged, yields zero new documents. -/
theorem C7_idempotent_ingestion_witness :
    (∀ d ∈ [(⟨"corpus/a.doc", 10, "t1", some "h1", some "Sub x()"⟩ : Doc)], ¬ d.md5 = none) ∧
    (∀ d ∈ [(⟨"corpus/a.doc", 10, "t1", some "h1", some "Sub x()"⟩ : Doc)],
      ¬ d.extracted_vba = none) ∧
    (load_model_data_merge (fun _ => some "h1") (fun _ => "Sub x()")
        [⟨"corpus/a.doc", 10, "t1", some "h1", some "Sub x()"⟩]
        ([(⟨"corpus/a.doc", 10, "t1", some "h1", some "Sub x()"⟩ : Doc)].map scanRow)).2 = 0 :=
  ⟨by decide, by decide,
    C7_idempotent_ingestion (fun _ => some "h1") (fun _ => "Sub x()")
      [⟨"corpus/a.doc", 10, "t1", some "h1", some "Sub x()"⟩] (by decide) (by decide)⟩

/-- Macro extraction does not touch the hash column. -/
theorem enrichNew_map_md5 (getvba : String → String) (l : List Doc) :
    (enrichNew getvba l).map Doc.md5 = l.map Doc.md5 := by
  rw [enrichNew, List.map_map]
  rfl

/-- C8: after the merge the sample set holds exactly one row per distinct
content hash (`md5` values are pairwise distinct, so rows with equal hash
coincide whatever their paths), and each surviving row is the first-seen
row bearing its hash in the merged, hash-filled sequence — kept verbatim
if its extraction was already populated, and enriched with the freshly
extracted macro text otherwise. -/
theorem C8_one_row_per_hash (hash : String → Option String)
    (getvba : String → String) (known cand : List Doc) :
    ((load_model_data_merge hash getvba known cand).1.map Doc.md5).Nodup ∧
    (∀ r1 ∈ (load_model_data_merge hash getvba known cand).1,
      ∀ r2 ∈ (load_model_data_merge hash getvba known cand).1,
        r1.md5 = r2.md5 → r1 = r2) ∧
    (∀ r ∈ (load_model_data_merge hash getvba known cand).1,
      ∃ r0, (fillHashes hash (dropUnresolved (known ++ cand))).find?
          (fun e => decide (e.md5 = r.md5)) = some r0 ∧
        (r = r0 ∨ r = { r0 with extracted_vba := some (getvba r0.filepath) })) := by
  have hout : (load_model_data_merge hash getvba known cand).1
      = (dedupByMd5 (fillHashes hash (dropUnresolved (known ++ cand)))).filter
          (fun d => ! d.extracted_vba.isNone) ++
        enrichNew getvba
          ((dedupByMd5 (fillHashes hash (dropUnresolved (known ++ cand)))).filter
            (fun d => d.extracted_vba.isNone)) := rfl
  have hperm : ((load_model_data_merge hash getvba known cand).1.map Doc.md5).Perm
      ((dedupByMd5 (fillHashes hash (dropUnresolved (known ++ cand)))).map Doc.md5) := by
    rw [hout, List.map_append, enrichNew_map_md5]
    have h := (List.filter_append_perm
      (fun d => d.extracted_vba.isNone)
      (dedupByMd5 (fillHashes hash (dropUnresolved (known ++ cand))))).map Doc.md5
    rw [List.map_append] at h
    exact List.perm_append_comm.trans h
  have hnodup : ((load_model_data_merge hash getvba known cand).1.map Doc.md5).Nodup :=
    hperm.symm.nodup (dedupByMd5_nodup _)
  refine ⟨hnodup, fun r1 h1 r2 h2 he => List.inj_on_of_nodup_map hnodup h1 h2 he, ?_⟩
  intro r hr
  rw [hout] at hr
  rcases List.mem_append.mp hr with hr | hr
  · have hrt := (List.mem_filter.mp hr).1
    exact ⟨r, dedupByMd5_find? hrt, Or.inl rfl⟩
  · rcases List.mem_map.mp hr with ⟨r0, hr0, rfl⟩
    have hrt := (List.mem_filter.mp hr0).1
    have hmd : ({ r0 with extracted_vba := some (getvba r0.filepath) } : Doc).md5 = r0.md5 := rfl
    rw [hmd]
    exact ⟨r0, dedupByMd5_find? hrt, Or.inr rfl⟩

/-- Witness for C8: two scanned rows with distinct metadata receive the
same hash; the merge keeps only the first and enriches it with the
extracted text. -/
theorem C8_one_row_per_hash_witness :
    (⟨"corpus/a.doc", 1, "t", some "h", some "code"⟩ : Doc) ∈
      (load_model_data_merge (fun _ => some "h") (fun _ => "code") []
        [⟨"corpus/a.doc", 1, "t", none, none⟩, ⟨"corpus/b.doc", 2, "t", none, none⟩]).1 ∧
    (∃ r0, (fillHashes (fun _ => some "h") (dropUnresolved
          ([] ++ [(⟨"corpus/a.doc", 1, "t", none, none⟩ : Doc),
            ⟨"corpus/b.doc", 2, "t", none, none⟩]))).find?
        (fun e => decide (e.md5 = (⟨"corpus/a.doc", 1, "t", some "h", some "code"⟩ : Doc).md5))
        = some r0 ∧
      ((⟨"corpus/a.doc", 1, "t", some "h", some "code"⟩ : Doc) = r0 ∨
        (⟨"corpus/a.doc", 1, "t", some "h", some "code"⟩ : Doc) =
          { r0 with extracted_vba := some ((fun _ => "code") r0.filepath) })) := by
  have hmem : (⟨"corpus/a.doc", 1, "t", some "h", some "code"⟩ : Doc) ∈
      (load_model_data_merge (fun _ => some "h") (fun _ => "code") []
        [⟨"corpus/a.doc", 1, "t", none, none⟩, ⟨"corpus/b.doc", 2, "t", none, none⟩]).1 := by
    decide
  exact ⟨hmem,
    (C8_one_row_per_hash (fun _ => some "h") (fun _ => "code") []
      [⟨"corpus/a.doc", 1, "t", none, none⟩, ⟨"corpus/b.doc", 2, "t", none, none⟩]).2.2
      _ hmem⟩

/-- Witness for C10 at a concrete continuation and datatype. -/
theorem C10_empty_and_type_checks_witness :
    mmb_predict_entry (fun _ _ => .ok []) (.str "") "vba" = .ok [] ∧
    mmb_predict_entry (fun _ _ => .ok []) (.df []) "vba" = .ok [] ∧
    mmb_predict_entry (fun _ _ => .ok []) .other "vba" = .error .typeError :=
  C10_empty_and_type_checks (fun _ _ => .ok []) "vba"

/-- The comparison used by `sorted(relevantFeatures, key=lambda x: x[1],
reverse=True)`.  Python's `sorted` is stable, which is equivalent to
sorting the index-value pairs by weight descending and breaking ties by
ascending original position. -/
def featLe (a b : Nat × String × ℚ × ℚ) : Bool :=
  decide (b.2.2.1 < a.2.2.1 ∨ (a.2.2.1 = b.2.2.1 ∧ a.1 ≤ b.1))

/-- `featLe` is transitive. -/
theorem featLe_trans : ∀ a b c : Nat × String × ℚ × ℚ,
    featLe a b → featLe b c → featLe a c := by
  intro a b c hab hbc
  have h1 := of_decide_eq_true hab
  have h2 := of_decide_eq_true hbc
  apply decide_eq_true
  rcases h1 with h1 | ⟨he1, hi1⟩
  · rcases h2 with h2 | ⟨he2, hi2⟩
    · exact Or.inl (h2.trans h1)
    · exact Or.inl (he2 ▸ h1)
  · rcases h2 with h2 | ⟨he2, hi2⟩
    · exact Or.inl (lt_of_lt_of_eq h2 he1.symm)
    · exact Or.inr ⟨he1.trans he2, hi1.trans hi2⟩

/-- `featLe` is total. -/
theorem featLe_total : ∀ a b : Nat × String × ℚ × ℚ,
    featLe a b || featLe b a := by
  intro a b
  simp only [featLe, Bool.or_eq_true, decide_eq_true_eq]
  rcases lt_trichotomy a.2.2.1 b.2.2.1 with h | h | h
  · exact Or.inr (Or.inl h)
  · rcases Nat.le_total a.1 b.1 with hi | hi
    · exact Or.inl (Or.inr ⟨h, hi⟩)
    · exact Or.inr (Or.inr ⟨h.symm, hi⟩)
  · exact Or.inl (Or.inl h)

/-- `featLe` implies descending TF-IDF weight. -/
theorem featLe_tfidf_le {a b : Nat × String × ℚ × ℚ} (h : featLe a b) :
    b.2.2.1 ≤ a.2.2.1 := by
  rcases of_decide_eq_true h with h1 | ⟨h1, -⟩
  · exact le_of_lt h1
  · exact le_of_eq h1.symm

/-- The collection loop of `get_top_vba_features` (source lines 600-609):
every vocabulary feature with a nonzero TF-IDF weight, paired with its
TF-IDF weight and its raw count.  `vocab`, `tf` and `cnt` are the aligned
columns `features['features']`, the sample's `tfidf_` row and its `cnt_`
row. -/
def relevantFeatures (vocab : List String) (tf cnt : List ℚ) :
    List (String × ℚ × ℚ) :=
  (vocab.zip (tf.zip cnt)).filter (fun p => decide (¬ p.2.1 = 0))

/-- Source line 612, `sorted(relevantFeatures, key=lambda x: x[1],
reverse=True)`: Python's stable descending sort, modelled as a merge sort
of the enumerated list under `featLe` (weight descending, original
position ascending on ties). -/
def pySortDesc (l : List (String × ℚ × ℚ)) : List (String × ℚ × ℚ) :=
  (l.enum.mergeSort featLe).map Prod.snd

/-- `get_top_vba_features` (source lines 595-635): sort the relevant
features, clamp `top` to `len(result) - 1` when it is not below the
result length, and surface the entries at indices `1 .. top` (ranks 2 to
`top+1`), skipping the single highest-ranked entry.  The feature-print is
the underscore-join of the surfaced names; the source joins the dict
values `names['feat_1_name'] .. names['feat_top_name']` by the
lexicographically sorted keys, which is rank order whenever `top ≤ 9`,
and `classify_vba` always calls this with `top=5`. -/
def get_top_vba_features (vocab : List String) (tf cnt : List ℚ)
    (top : Nat) : List (String × ℚ × ℚ) × String :=
  let result := pySortDesc (relevantFeatures vocab tf cnt)
  let t := if result.length ≤ top then result.length - 1 else top
  let sel := (result.drop 1).take t
  (sel, String.intercalate "_" (sel.map (fun p => p.1)))

/-- Membership in the three-column zip is pointwise alignment at some
index. -/
theorem mem_zip3_iff {n : String} {w c : ℚ} :
    ∀ {vocab : List String} {tf cnt : List ℚ},
    ((n, w, c) ∈ vocab.zip (tf.zip cnt)) ↔
      ∃ i : ℕ, vocab[i]? = some n ∧ tf[i]? = some w ∧ cnt[i]? = some c := by
  intro vocab
  induction vocab with
  | nil => intro tf cnt; simp
  | cons v vs ih =>
    intro tf cnt
    cases tf with
    | nil => simp
    | cons t ts =>
      cases cnt with
      | nil => simp
      | cons c0 cs =>
        simp only [List.zip_cons_cons, List.mem_cons, Prod.mk.injEq]
        constructor
        · rintro (⟨h1, h2, h3⟩ | h)
          · exact ⟨0, by simp [h1], by simp [h2], by simp [h3]⟩
          · rcases ih.mp h with ⟨i, h1, h2, h3⟩
            refine ⟨i + 1, ?_, ?_, ?_⟩ <;> simpa
        · rintro ⟨i, h1, h2, h3⟩
          cases i with
          | zero =>
            simp only [List.getElem?_cons_zero, Option.some.injEq] at h1 h2 h3
            exact Or.inl ⟨h1.symm, h2.symm, h3.symm⟩
          | succ j =>
            simp only [List.getElem?_cons_succ] at h1 h2 h3
            exact Or.inr (ih.mpr ⟨j, h1, h2, h3⟩)

/-- C5: the explainer collects exactly the vocabulary features with
nonzero TF-IDF weight together with their raw counts; sorting is by
TF-IDF weight descending and is stable (on equal weights the original
vocabulary positions stay in ascending order); the surfaced selection for
the default `top = 5` consists of the entries at ranks 2 through `top+1`
of the sorted list — the single highest-ranked feature is skipped — and
the feature-print is the underscore-join of the surfaced names. -/
theorem C5_top_features_ranking (vocab : List String) (tf cnt : List ℚ) :
    (∀ (n : String) (w c : ℚ),
      (n, w, c) ∈ relevantFeatures vocab tf cnt ↔
        ((∃ i : ℕ, vocab[i]? = some n ∧ tf[i]? = some w ∧ cnt[i]? = some c) ∧
          ¬ w = 0)) ∧
    (pySortDesc (relevantFeatures vocab tf cnt)).Perm
      (relevantFeatures vocab tf cnt) ∧
    List.Pairwise (fun a b : String × ℚ × ℚ => b.2.1 ≤ a.2.1)
      (pySortDesc (relevantFeatures vocab tf cnt)) ∧
    List.Pairwise (fun a b : Nat × String × ℚ × ℚ => a.2.2.1 = b.2.2.1 → a.1 < b.1)
      ((relevantFeatures vocab tf cnt).enum.mergeSort featLe) ∧
    (get_top_vba_features vocab tf cnt 5).1.length =
      min 5 ((pySortDesc (relevantFeatures vocab tf cnt)).length - 1) ∧
    (∀ k : ℕ, k < (get_top_vba_features vocab tf cnt 5).1.length →
      (get_top_vba_features vocab tf cnt 5).1[k]? =
        (pySortDesc (relevantFeatures vocab tf cnt))[k + 1]?) ∧
    (get_top_vba_features vocab tf cnt 5).2 =
      String.intercalate "_"
        ((get_top_vba_features vocab tf cnt 5).1.map (fun p => p.1)) := by
  have hperm : ((relevantFeatures vocab tf cnt).enum.mergeSort featLe).Perm
      (relevantFeatures vocab tf cnt).enum := List.mergeSort_perm _ _
  have hsorted : ((relevantFeatures vocab tf cnt).enum.mergeSort featLe).Pairwise
      (fun a b => featLe a b) :=
    List.sorted_mergeSort featLe_trans featLe_total _
  refine ⟨?_, ?_, ?_, ?_, ?_, ?_, rfl⟩
  · intro n w c
    rw [relevantFeatures, List.mem_filter]
    exact and_congr mem_zip3_iff (by simp)
  · rw [pySortDesc]
    have h := hperm.map Prod.snd
    rwa [List.enum_map_snd] at h
  · rw [pySortDesc, List.pairwise_map]
    exact hsorted.imp (fun hab => featLe_tfidf_le hab)
  · have hfstnd : (((relevantFeatures vocab tf cnt).enum.mergeSort featLe).map
        Prod.fst).Nodup := by
      have hpm := hperm.map Prod.fst
      rw [List.enum_map_fst] at hpm
      exact hpm.nodup_iff.mpr (List.nodup_range _)
    have hfst : ((relevantFeatures vocab tf cnt).enum.mergeSort featLe).Pairwise
        (fun a b => a.1 ≠ b.1) := List.pairwise_map.mp hfstnd
    refine (hsorted.and hfst).imp ?_
    rintro a b ⟨hle, hne⟩ heq
    rcases of_decide_eq_true hle with hlt | ⟨-, hidx⟩
    · exact absurd (heq ▸ hlt) (lt_irrefl _)
    · exact lt_of_le_of_ne hidx hne
  · by_cases h : (pySortDesc (relevantFeatures vocab tf cnt)).length ≤ 5
    · simp only [get_top_vba_features, h, ite_true, List.length_take, List.length_drop]
      omega
    · simp only [get_top_vba_features, h, ite_false, List.length_take, List.length_drop]
  · intro k hk
    by_cases h : (pySortDesc (relevantFeatures vocab tf cnt)).length ≤ 5
    · simp only [get_top_vba_features, h, ite_true, List.length_take,
        List.length_drop] at hk ⊢
      rw [List.getElem?_take_of_lt (by omega), List.getElem?_drop, Nat.add_comm]
    · simp only [get_top_vba_features, h, ite_false, List.length_take,
        List.length_drop] at hk ⊢
      rw [List.getElem?_take_of_lt (by omega), List.getElem?_drop, Nat.add_comm]

/-- Witness for C5 at a concrete scored sample over the vocabulary
`["shell", "createobject", "cmd"]`: `createobject` has zero TF-IDF weight
and is not collected, `cmd` is, and the feature-print joins the surfaced
names. -/
theorem C5_top_features_ranking_witness :
    (("cmd", (2 : ℚ), (1 : ℚ)) ∈
      relevantFeatures ["shell", "createobject", "cmd"] [3, 0, 2] [2, 0, 1]) ∧
    (get_top_vba_features ["shell", "createobject", "cmd"] [3, 0, 2] [2, 0, 1] 5).2 =
      String.intercalate "_"
        ((get_top_vba_features ["shell", "createobject", "cmd"] [3, 0, 2] [2, 0, 1] 5).1.map
          (fun p => p.1)) := by
  refine ⟨?_, (C5_top_features_ranking ["shell", "createobject", "cmd"]
    [3, 0, 2] [2, 0, 1]).2.2.2.2.2.2⟩
  exact ((C5_top_features_ranking ["shell", "createobject", "cmd"]
      [3, 0, 2] [2, 0, 1]).1 "cmd" 2 1).mpr
    ⟨⟨2, by decide, by decide, by decide⟩, by decide⟩

end MMBot
